import Mathlib

/-!
Verification of the coreason-budget core (Ledger + Guard + Manager) as a
shallow embedding. Money amounts are modelled as rationals, the Redis
counter store as a function from keys to optional entries, and each
Python/Lua operation of the source is translated into an executable Lean
definition. Theorems below settle the specification claims against these
definitions.
-/

namespace CoreasonBudget

/-- Configuration limits, from `config.py` (`CoreasonBudgetConfig`). -/
structure Config where
  daily_user_limit_usd : ℚ
  daily_project_limit_usd : ℚ
  daily_global_limit_usd : ℚ
deriving Repr, DecidableEq

/-- Global scope key, from `guard.py` line 54: `"spend:v1:global:{date_str}"`. -/
def globalKey (dateStr : String) : String :=
  "spend:v1:global:" ++ dateStr

/-- Project scope key, from `guard.py` line 59: `"spend:v1:project:{project_id}:{date_str}"`. -/
def projectKey (projectId dateStr : String) : String :=
  "spend:v1:project:" ++ projectId ++ ":" ++ dateStr

/-- User scope key, from `guard.py` line 63: `"spend:v1:user:{user_id}:{date_str}"`. -/
def userKey (userId dateStr : String) : String :=
  "spend:v1:user:" ++ userId ++ ":" ++ dateStr

/-- `BudgetGuard._get_keys_and_limits` (`guard.py` lines 45-66): ordered list of
`(redis_key, limit_amount, scope_name)`, Global then (optionally) Project then User. -/
def getKeysAndLimits (cfg : Config) (dateStr userId : String)
    (projectId : Option String) : List (String × ℚ × String) :=
  [(globalKey dateStr, cfg.daily_global_limit_usd, "Global")]
  ++ (match projectId with
      | some p => if p.isEmpty then [] else
          [(projectKey p dateStr, cfg.daily_project_limit_usd, "Project " ++ p)]
      | none => [])
  ++ [(userKey userId dateStr, cfg.daily_user_limit_usd, "User " ++ userId)]

/-- The violation test of `BudgetGuard.check_availability` (`guard.py` line 81):
`used >= limit or (estimated_cost > 0 and used + estimated_cost > limit)`. -/
def isViolated (used limit est : ℚ) : Bool :=
  decide (used ≥ limit) || (decide (est > 0) && decide (used + est > limit))

/-- One stored counter: its numeric value and its expiry
(`some t` = `t` seconds remaining, which Redis reports as a non-negative `TTL`;
`none` = no expiry, reported as `TTL` = -1). -/
structure LEntry where
  val : ℚ
  expiry : Option ℕ
deriving Repr, DecidableEq

/-- The counter store: a key either holds an entry or is absent. -/
def LState := String → Option LEntry

/-- Usage visible through `get_usage` for a key holding a numeric counter:
`0` when the key is absent (`ledger.py` line 70). -/
def getUsageQ (st : LState) (k : String) : ℚ :=
  match st k with
  | none => 0
  | some e => e.val

/-- Redis `INCRBYFLOAT` (first line of `LUA_INCREMENT_SCRIPT`): create the key at 0
if absent, add `a`, keep the existing expiry. -/
def incrByFloat (st : LState) (k : String) (a : ℚ) : LState :=
  fun k2 =>
    if k2 = k then
      match st k with
      | none => some ⟨a, none⟩
      | some e => some ⟨e.val + a, e.expiry⟩
    else st k2

/-- Redis `TTL key`: -2 when absent, -1 when no expiry, else the remaining seconds. -/
def redisTTL (st : LState) (k : String) : ℤ :=
  match st k with
  | none => -2
  | some e =>
    match e.expiry with
    | none => -1
    | some t => (t : ℤ)

/-- Redis `EXPIRE key t`: on an existing key, a non-positive `t` deletes the key,
a positive `t` sets the expiry; absent keys are untouched. -/
def expire (st : LState) (k : String) (t : ℤ) : LState :=
  fun k2 =>
    if k2 = k then
      match st k with
      | none => none
      | some e => if t ≤ 0 then none else some ⟨e.val, some t.toNat⟩
    else st k2

/-- `LUA_INCREMENT_SCRIPT` (`ledger.py` lines 21-37): `INCRBYFLOAT`, then, when a
ttl argument is supplied (`ARGV[2] ~= "nil"`) and `TTL` returns -1, `EXPIRE`.
Returns the new store and the new value of the counter. -/
def luaIncrement (st : LState) (k : String) (a : ℚ) (ttlArg : Option ℤ) :
    LState × ℚ :=
  let st1 := incrByFloat st k a
  let cur := getUsageQ st1 k
  match ttlArg with
  | none => (st1, cur)
  | some t => if redisTTL st1 k = -1 then (expire st1 k t, cur) else (st1, cur)

/-- A call the Guard makes against the Ledger. -/
inductive LedgerOp where
  | get (k : String)
  | incr (k : String) (a : ℚ) (ttlArg : Option ℤ)
deriving Repr, DecidableEq

/-- Whether a ledger call is a pure read. -/
def LedgerOp.isGet : LedgerOp → Bool
  | .get _ => true
  | .incr _ _ _ => false

/-- Effect of one ledger call on the store: `get_usage` reads, `increment`
runs the Lua script. -/
def applyOp (st : LState) : LedgerOp → LState
  | .get _ => st
  | .incr k a t => (luaIncrement st k a t).1

/-- Effect of a sequence of ledger calls. -/
def applyOps (st : LState) : List LedgerOp → LState
  | [] => st
  | op :: ops => applyOps (applyOp st op) ops

/-- `BudgetGuard.check_availability` (`guard.py` lines 68-91) run over the derived
scope list: reads each scope's usage in order; on the first violated scope stops
with `some (scope_name, limit)` (the `BudgetExceededError` payload); otherwise
continues. Also returns the exact sequence of ledger calls performed. -/
def checkAvailRun (st : LState) (est : ℚ) :
    List (String × ℚ × String) → Option (String × ℚ) × List LedgerOp
  | [] => (none, [])
  | (k, l, sc) :: rest =>
    let used := getUsageQ st k
    if isViolated used l est then
      (some (sc, l), [.get k])
    else
      let r := checkAvailRun st est rest
      (r.1, .get k :: r.2)

/-- The loop of `BudgetGuard.record_spend` (`guard.py` lines 107-109): increment
every derived key in order. `fail k = true` models the Redis increment for `k`
raising; the loop stops there and the error propagates. Returns the store as
left by the call and `some k` for the key whose increment failed. -/
def recordSpendRun (fail : String → Bool) (a : ℚ) (ttlArg : Option ℤ) :
    List String → LState → LState × Option String
  | [], st => (st, none)
  | k :: ks, st =>
    if fail k then (st, some k)
    else recordSpendRun fail a ttlArg ks (luaIncrement st k a ttlArg).1

/-- The metric event logged by `BudgetGuard.record_spend` (`guard.py` lines 111-123). -/
structure MetricEvent where
  amount : ℚ
  modelTag : String
  projectTag : String
  userTag : String
deriving Repr, DecidableEq

/-- `x if x else d` on an optional string (`guard.py` lines 114-115). -/
def pyOrElse (o : Option String) (d : String) : String :=
  match o with
  | some s => if s.isEmpty then d else s
  | none => d

/-- `BudgetGuard.record_spend` (`guard.py` lines 93-123): derive the scope keys,
increment each in order, and on success emit the metric event with
`project_tag = project_id if project_id else "none"` and
`model_tag = model if model else "unknown"`. No metric is emitted when an
increment fails. -/
def guardRecordSpend (fail : String → Bool) (st : LState) (cfg : Config)
    (dateStr userId : String) (projectId modelName : Option String)
    (amount : ℚ) (ttlArg : Option ℤ) :
    LState × Option String × Option MetricEvent :=
  let keys := (getKeysAndLimits cfg dateStr userId projectId).map (·.1)
  let r := recordSpendRun fail amount ttlArg keys st
  match r.2 with
  | some k => (r.1, some k, none)
  | none =>
    (r.1, none,
      some ⟨amount, pyOrElse modelName "unknown", pyOrElse projectId "none", userId⟩)

/-- Numeric value of a decimal digit, `none` otherwise. -/
def digitVal (c : Char) : Option ℕ :=
  if c.isDigit then some (c.toNat - 48) else none

/-- Parse a digit string (possibly empty) to its value; `none` when any
character is not a digit. -/
def parseNatAux (cs : List Char) : Option ℕ :=
  cs.foldl (fun acc c => acc.bind (fun a => (digitVal c).map (fun d => a * 10 + d)))
    (some 0)

/-- Python `float(s)` on the decimal strings the ledger stores: optional sign,
integer digits, optional fractional part; `none` models the `ValueError`
raised on a non-numeric payload. -/
def parseFloat (s : String) : Option ℚ :=
  let cs := s.data
  let signed : ℚ × List Char :=
    match cs with
    | '-' :: t => (-1, t)
    | '+' :: t => (1, t)
    | t => (1, t)
  let ip := signed.2.takeWhile (fun c => c ≠ '.')
  let fp := signed.2.drop ip.length
  match fp with
  | [] =>
    if ip.isEmpty then none
    else (parseNatAux ip).map (fun n => signed.1 * n)
  | '.' :: frac =>
    if ip.isEmpty && frac.isEmpty then none
    else
      match parseNatAux ip, parseNatAux frac with
      | some n, some f =>
        some (signed.1 * ((n : ℚ) + (f : ℚ) / ((10 : ℚ) ^ frac.length)))
      | _, _ => none
  | _ => none

/-- The raw string store behind `get_usage`: what `redis.get` returns for each
key (`decode_responses=True`, so values are strings; `none` = key absent). -/
def RStore := String → Option String

/-- Outcome of `RedisLedger.get_usage`. -/
inductive GetUsageResult where
  | ok (v : ℚ)
  | valueError
deriving Repr, DecidableEq

/-- `RedisLedger.get_usage` (`ledger.py` lines 66-73):
`val = await self._redis.get(key); return float(val) if val else 0.0`.
`None` and the empty string are falsy, so both give `0.0`; any other value is
passed to `float`, whose failure (`ValueError`) propagates uncaught. -/
def get_usage (st : RStore) (k : String) : GetUsageResult :=
  match st k with
  | none => .ok 0
  | some v =>
    if v.isEmpty then .ok 0
    else
      match parseFloat v with
      | some q => .ok q
      | none => .valueError

/-- Python `int()` on a rational: truncation toward zero. -/
def pyInt (q : ℚ) : ℤ :=
  if 0 ≤ q then ⌊q⌋ else -⌊-q⌋

/-- `BudgetGuard._get_ttl_seconds` (`guard.py` lines 36-43), with the current
UTC time abstracted as `secOfDay`, the (possibly fractional) number of seconds
since the last UTC midnight (`0 ≤ secOfDay < 86400`). The code takes
`now + 1 day`, truncates it to midnight of that next calendar day, and returns
`int((midnight - now).total_seconds())`, i.e. `int(86400 - secOfDay)`.
No clamping is applied. -/
def getTtlSeconds (secOfDay : ℚ) : ℤ :=
  pyInt (86400 - secOfDay)

/-- Python float inputs of the Manager: finite values are rationals; `nan`
and the infinities are the non-finite inputs `math.isfinite` rejects. -/
inductive PyNum where
  | finite (q : ℚ)
  | nan
  | posInf
  | negInf
deriving Repr, DecidableEq

/-- `math.isfinite`. -/
def PyNum.isFinite : PyNum → Bool
  | .finite _ => true
  | _ => false

/-- Python `s.strip()`: drop leading and trailing whitespace. -/
def pyStrip (s : String) : String :=
  String.mk
    (((s.data.dropWhile Char.isWhitespace).reverse.dropWhile
        Char.isWhitespace).reverse)

/-- Python `not s or not s.strip()` on an optional string: true for `None`,
the empty string, and whitespace-only strings. -/
def pyBlank : Option String → Bool
  | none => true
  | some s => s.isEmpty || (pyStrip s).isEmpty

/-- The delegation `BudgetManager.record_spend` makes to the Guard when
validation passes. -/
structure GuardSpendCall where
  user_id : String
  amount : ℚ
  project_id : Option String
  model : Option String
deriving Repr, DecidableEq

/-- `BudgetManager.record_spend` (`manager.py` lines 49-68): validates that
`user_id`, `project_id` and `model` are non-empty/non-whitespace and that
`amount` is finite, in that order, raising `ValueError` otherwise; only then
delegates to `BudgetGuard.record_spend`. -/
def manager_record_spend (user_id project_id modelName : Option String)
    (amount : PyNum) : Except String GuardSpendCall :=
  if pyBlank user_id then .error "user_id must be a non-empty string."
  else if pyBlank project_id then .error "project_id must be a non-empty string."
  else if pyBlank modelName then .error "model must be a non-empty string."
  else if !amount.isFinite then .error "Amount must be a finite number."
  else
    match user_id, amount with
    | some u, .finite q => .ok ⟨u, q, project_id, modelName⟩
    | _, _ => .error "unreachable"

/-- The expiry a key carries before an operation (`none` also for absent keys,
which are created without expiry). -/
def oldExpiry (st : LState) (k : String) : Option ℕ :=
  match st k with
  | none => none
  | some e => e.expiry

theorem incrByFloat_self (st : LState) (k : String) (a : ℚ) :
    incrByFloat st k a k = some ⟨getUsageQ st k + a, oldExpiry st k⟩ := by
  unfold incrByFloat getUsageQ oldExpiry
  cases h : st k <;> simp [h]

theorem incrByFloat_other (st : LState) (k : String) (a : ℚ) (k2 : String)
    (h : k2 ≠ k) : incrByFloat st k a k2 = st k2 := by
  unfold incrByFloat
  simp [h]

theorem expire_other (st : LState) (k : String) (t : ℤ) (k2 : String)
    (h : k2 ≠ k) : expire st k t k2 = st k2 := by
  unfold expire
  simp [h]

theorem luaIncrement_other (st : LState) (k : String) (a : ℚ) (ttlArg : Option ℤ)
    (k2 : String) (h : k2 ≠ k) : (luaIncrement st k a ttlArg).1 k2 = st k2 := by
  unfold luaIncrement
  cases ttlArg with
  | none => simp [incrByFloat_other st k a k2 h]
  | some t =>
    by_cases hd : redisTTL (incrByFloat st k a) k = -1 <;>
      simp [hd, expire_other _ k t k2 h, incrByFloat_other st k a k2 h]

theorem getUsageQ_of_eq {st : LState} {k : String} {e : LEntry}
    (h : st k = some e) : getUsageQ st k = e.val := by
  unfold getUsageQ
  rw [h]

theorem expire_self_pos {st : LState} {k : String} {e : LEntry} {t : ℤ}
    (h : st k = some e) (ht : 0 < t) :
    expire st k t k = some ⟨e.val, some t.toNat⟩ := by
  unfold expire
  simp [h, not_le.mpr ht]

theorem luaIncrement_self (st : LState) (k : String) (a : ℚ) (ttlArg : Option ℤ)
    (htt : ∀ t, ttlArg = some t → 0 < t) :
    getUsageQ ((luaIncrement st k a ttlArg).1) k = getUsageQ st k + a := by
  cases ttlArg with
  | none =>
    exact getUsageQ_of_eq (incrByFloat_self st k a)
  | some t =>
    have ht : 0 < t := htt t rfl
    by_cases hd : redisTTL (incrByFloat st k a) k = -1
    · have h1 : (luaIncrement st k a (some t)).1 = expire (incrByFloat st k a) k t := by
        unfold luaIncrement
        simp [hd]
      rw [h1]
      exact getUsageQ_of_eq (expire_self_pos (incrByFloat_self st k a) ht)
    · have h1 : (luaIncrement st k a (some t)).1 = incrByFloat st k a := by
        unfold luaIncrement
        simp [hd]
      rw [h1]
      exact getUsageQ_of_eq (incrByFloat_self st k a)

/-- `isViolated` is exactly the disjunction the spec states. -/
theorem isViolated_iff (u l e : ℚ) :
    isViolated u l e = true ↔ (l ≤ u ∨ (0 < e ∧ l < u + e)) := by
  unfold isViolated
  simp [ge_iff_le, gt_iff_lt]

/-- C1: for every scope (key, limit) examined by `check_availability`, the scope
is violated (raising `BudgetExceededError`) exactly when `usage ≥ limit`, or
`estimated_cost > 0` and `usage + estimated_cost > limit`; in particular with
limit 10 and usage 5 an estimate of 5 passes, an estimate of 5.01 violates, and
any usage ≥ 10 violates regardless of the estimate. -/
theorem check_availability_violation_condition (st : LState) (k sc : String)
    (limit est : ℚ) :
    ((checkAvailRun st est [(k, limit, sc)]).1 = some (sc, limit)
      ↔ (limit ≤ getUsageQ st k ∨ (0 < est ∧ limit < getUsageQ st k + est)))
    ∧ isViolated 5 10 5 = false
    ∧ isViolated 5 10 (5.01 : ℚ) = true
    ∧ (∀ u e : ℚ, 10 ≤ u → isViolated u 10 e = true) := by
  refine ⟨?_, by norm_num [isViolated], by norm_num [isViolated], ?_⟩
  · have hrun : checkAvailRun st est [(k, limit, sc)] =
        if isViolated (getUsageQ st k) limit est then (some (sc, limit), [LedgerOp.get k])
        else (none, [LedgerOp.get k]) := rfl
    rw [hrun]
    by_cases hb : isViolated (getUsageQ st k) limit est = true
    · rw [if_pos hb]
      exact iff_of_true rfl ((isViolated_iff _ _ _).mp hb)
    · rw [if_neg hb]
      exact iff_of_false (by simp) (fun hp => hb ((isViolated_iff _ _ _).mpr hp))
  · intro u e hu
    rw [isViolated_iff]
    exact Or.inl hu

theorem check_availability_violation_condition_witness :
    isViolated 12 10 0 = true :=
  (check_availability_violation_condition (fun _ => none) "k" "s" 10 0).2.2.2 12 0
    (by norm_num)

/-- C2: `check_availability` evaluates the derived scopes in the fixed order
Global, then Project (only when `project_id` is given), then User; on the first
violated scope it stops with the `BudgetExceededError` payload naming that
scope and its limit, and no later scope is read — in particular a violated
Global scope is always the one reported. -/
theorem check_availability_scope_order (cfg : Config) (dateStr u p : String)
    (st : LState) (est : ℚ) (hp : p.isEmpty = false) :
    getKeysAndLimits cfg dateStr u (some p) =
      [(globalKey dateStr, cfg.daily_global_limit_usd, "Global"),
       (projectKey p dateStr, cfg.daily_project_limit_usd, "Project " ++ p),
       (userKey u dateStr, cfg.daily_user_limit_usd, "User " ++ u)]
    ∧ getKeysAndLimits cfg dateStr u none =
      [(globalKey dateStr, cfg.daily_global_limit_usd, "Global"),
       (userKey u dateStr, cfg.daily_user_limit_usd, "User " ++ u)]
    ∧ (isViolated (getUsageQ st (globalKey dateStr)) cfg.daily_global_limit_usd est
          = true →
        checkAvailRun st est (getKeysAndLimits cfg dateStr u (some p)) =
          (some ("Global", cfg.daily_global_limit_usd), [.get (globalKey dateStr)]))
    ∧ (isViolated (getUsageQ st (globalKey dateStr)) cfg.daily_global_limit_usd est
          = false →
       isViolated (getUsageQ st (projectKey p dateStr)) cfg.daily_project_limit_usd est
          = true →
        checkAvailRun st est (getKeysAndLimits cfg dateStr u (some p)) =
          (some ("Project " ++ p, cfg.daily_project_limit_usd),
           [.get (globalKey dateStr), .get (projectKey p dateStr)]))
    ∧ (isViolated (getUsageQ st (globalKey dateStr)) cfg.daily_global_limit_usd est
          = false →
       isViolated (getUsageQ st (projectKey p dateStr)) cfg.daily_project_limit_usd est
          = false →
       isViolated (getUsageQ st (userKey u dateStr)) cfg.daily_user_limit_usd est
          = true →
        checkAvailRun st est (getKeysAndLimits cfg dateStr u (some p)) =
          (some ("User " ++ u, cfg.daily_user_limit_usd),
           [.get (globalKey dateStr), .get (projectKey p dateStr),
            .get (userKey u dateStr)])) := by
  have hlist : getKeysAndLimits cfg dateStr u (some p) =
      [(globalKey dateStr, cfg.daily_global_limit_usd, "Global"),
       (projectKey p dateStr, cfg.daily_project_limit_usd, "Project " ++ p),
       (userKey u dateStr, cfg.daily_user_limit_usd, "User " ++ u)] := by
    unfold getKeysAndLimits
    simp [hp]
  refine ⟨hlist, rfl, ?_, ?_, ?_⟩
  · intro hg
    rw [hlist]
    simp [checkAvailRun, hg]
  · intro hg hpv
    rw [hlist]
    simp [checkAvailRun, hg, hpv]
  · intro hg hpv hu
    rw [hlist]
    simp [checkAvailRun, hg, hpv, hu]

theorem check_availability_scope_order_witness :
    checkAvailRun (fun _ => some ⟨6000, none⟩) 0
        (getKeysAndLimits ⟨10, 500, 5000⟩ "2025-01-01" "u1" (some "p1")) =
      (some ("Global", 5000), [.get (globalKey "2025-01-01")]) :=
  (check_availability_scope_order ⟨10, 500, 5000⟩ "2025-01-01" "u1" "p1"
      (fun _ => some ⟨6000, none⟩) 0 rfl).2.2.1
    (by norm_num [isViolated, getUsageQ])

/-- Every ledger call made by `check_availability` is a read, and replaying its
call trace against the store leaves the store unchanged. -/
theorem checkAvailRun_pure (st : LState) (est : ℚ)
    (checks : List (String × ℚ × String)) :
    ((checkAvailRun st est checks).2.all LedgerOp.isGet = true)
    ∧ applyOps st (checkAvailRun st est checks).2 = st := by
  induction checks with
  | nil => exact ⟨rfl, rfl⟩
  | cons hd rest ih =>
    obtain ⟨k, l, sc⟩ := hd
    have hstep : checkAvailRun st est ((k, l, sc) :: rest) =
        if isViolated (getUsageQ st k) l est then (some (sc, l), [LedgerOp.get k])
        else ((checkAvailRun st est rest).1,
              LedgerOp.get k :: (checkAvailRun st est rest).2) := rfl
    by_cases hb : isViolated (getUsageQ st k) l est = true
    · rw [hstep, if_pos hb]
      exact ⟨rfl, rfl⟩
    · rw [hstep, if_neg hb]
      refine ⟨?_, ih.2⟩
      show (LedgerOp.isGet (LedgerOp.get k)
          && (checkAvailRun st est rest).2.all LedgerOp.isGet) = true
      rw [ih.1]
      rfl

/-- C7: `check_availability` is a pure read (dry run): whether it returns
successfully or raises, the ledger calls it performs are all `get_usage` reads
and the counter store is left exactly as it was. -/
theorem check_availability_no_writes (st : LState) (cfg : Config)
    (dateStr userId : String) (projectId : Option String) (est : ℚ) :
    ((checkAvailRun st est (getKeysAndLimits cfg dateStr userId projectId)).2.all
        LedgerOp.isGet = true)
    ∧ applyOps st
        (checkAvailRun st est (getKeysAndLimits cfg dateStr userId projectId)).2
      = st :=
  checkAvailRun_pure st est _

theorem getUsageQ_congr {stA stB : LState} {k : String} (h : stA k = stB k) :
    getUsageQ stA k = getUsageQ stB k := by
  unfold getUsageQ
  rw [h]

/-- C3: `record_spend` applies the scope increments sequentially in the order
Global, Project, User with no cross-key transaction: when the project-scope
increment fails, the global increment already applied stays committed, the user
increment is never attempted (its key is untouched), and the failure propagates
to the caller. -/
theorem record_spend_partial_failure (cfg : Config) (dateStr u p : String)
    (st : LState) (a : ℚ) (ttl : ℤ) (fail : String → Bool)
    (hp : p.isEmpty = false) (httl : 0 < ttl)
    (hgf : fail (globalKey dateStr) = false)
    (hpf : fail (projectKey p dateStr) = true)
    (hne : userKey u dateStr ≠ globalKey dateStr) :
    (recordSpendRun fail a (some ttl)
        ((getKeysAndLimits cfg dateStr u (some p)).map (·.1)) st).2
      = some (projectKey p dateStr)
    ∧ getUsageQ (recordSpendRun fail a (some ttl)
        ((getKeysAndLimits cfg dateStr u (some p)).map (·.1)) st).1
        (globalKey dateStr)
      = getUsageQ st (globalKey dateStr) + a
    ∧ (recordSpendRun fail a (some ttl)
        ((getKeysAndLimits cfg dateStr u (some p)).map (·.1)) st).1
        (userKey u dateStr)
      = st (userKey u dateStr) := by
  have hkeys : (getKeysAndLimits cfg dateStr u (some p)).map (·.1) =
      [globalKey dateStr, projectKey p dateStr, userKey u dateStr] := by
    unfold getKeysAndLimits
    simp [hp]
  have hrun : recordSpendRun fail a (some ttl)
      [globalKey dateStr, projectKey p dateStr, userKey u dateStr] st =
      ((luaIncrement st (globalKey dateStr) a (some ttl)).1,
       some (projectKey p dateStr)) := by
    simp [recordSpendRun, hgf, hpf]
  rw [hkeys, hrun]
  refine ⟨rfl, ?_, ?_⟩
  · exact luaIncrement_self st (globalKey dateStr) a (some ttl)
      (fun t ht => (Option.some.inj ht) ▸ httl)
  · exact luaIncrement_other st (globalKey dateStr) a (some ttl)
      (userKey u dateStr) hne

theorem record_spend_partial_failure_witness :
    (recordSpendRun (fun k => decide (k = projectKey "p1" "2025-01-01")) 5
        (some 3600)
        ((getKeysAndLimits ⟨10, 500, 5000⟩ "2025-01-01" "u1" (some "p1")).map (·.1))
        (fun _ => none)).2
      = some (projectKey "p1" "2025-01-01") :=
  (record_spend_partial_failure ⟨10, 500, 5000⟩ "2025-01-01" "u1" "p1"
      (fun _ => none) 5 3600 (fun k => decide (k = projectKey "p1" "2025-01-01"))
      rfl (by decide) (by decide) (by decide) (by decide)).1

/-- C4: the increment script sets a key's expiry to the supplied ttl only when a
ttl is supplied and the key currently has no expiry (including keys it just
created); for every key that already carries a running expiry, a later increment
with any ttl argument leaves that expiry exactly as it was — never extended,
shortened or reset. -/
theorem increment_ttl_set_once (st : LState) (k : String) (a : ℚ)
    (ttlArg : Option ℤ) :
    (∀ v : ℚ, ∀ e : ℕ, st k = some ⟨v, some e⟩ →
        (luaIncrement st k a ttlArg).1 k = some ⟨v + a, some e⟩)
    ∧ (∀ v : ℚ, ∀ oe : Option ℕ, st k = some ⟨v, oe⟩ →
        (luaIncrement st k a none).1 k = some ⟨v + a, oe⟩)
    ∧ (st k = none → (luaIncrement st k a none).1 k = some ⟨a, none⟩)
    ∧ (∀ t : ℤ, 0 < t → st k = none →
        (luaIncrement st k a (some t)).1 k = some ⟨a, some t.toNat⟩)
    ∧ (∀ t : ℤ, ∀ v : ℚ, 0 < t → st k = some ⟨v, none⟩ →
        (luaIncrement st k a (some t)).1 k = some ⟨v + a, some t.toNat⟩) := by
  have hnoTtl : (luaIncrement st k a none).1 = incrByFloat st k a := rfl
  refine ⟨?_, ?_, ?_, ?_, ?_⟩
  · intro v e h
    have h1 : incrByFloat st k a k = some ⟨v + a, some e⟩ := by
      rw [incrByFloat_self, getUsageQ_of_eq h]
      unfold oldExpiry
      rw [h]
    have hne : ¬ redisTTL (incrByFloat st k a) k = -1 := by
      unfold redisTTL
      rw [h1]
      intro hc
      have hc2 : ((e : ℤ)) = -1 := hc
      omega
    cases ttlArg with
    | none => rw [hnoTtl]; exact h1
    | some t =>
      have hL : (luaIncrement st k a (some t)).1 = incrByFloat st k a := by
        unfold luaIncrement
        simp [hne]
      rw [hL]
      exact h1
  · intro v oe h
    rw [hnoTtl, incrByFloat_self, getUsageQ_of_eq h]
    unfold oldExpiry
    rw [h]
  · intro h
    rw [hnoTtl, incrByFloat_self]
    unfold getUsageQ oldExpiry
    rw [h]
    norm_num
  · intro t ht h
    have h1 : incrByFloat st k a k = some ⟨a, none⟩ := by
      rw [incrByFloat_self]
      unfold getUsageQ oldExpiry
      rw [h]
      norm_num
    have heq : redisTTL (incrByFloat st k a) k = -1 := by
      unfold redisTTL
      rw [h1]
    have hL : (luaIncrement st k a (some t)).1 = expire (incrByFloat st k a) k t := by
      unfold luaIncrement
      simp [heq]
    rw [hL, expire_self_pos h1 ht]
  · intro t v ht h
    have h1 : incrByFloat st k a k = some ⟨v + a, none⟩ := by
      rw [incrByFloat_self, getUsageQ_of_eq h]
      unfold oldExpiry
      rw [h]
    have heq : redisTTL (incrByFloat st k a) k = -1 := by
      unfold redisTTL
      rw [h1]
    have hL : (luaIncrement st k a (some t)).1 = expire (incrByFloat st k a) k t := by
      unfold luaIncrement
      simp [heq]
    rw [hL, expire_self_pos h1 ht]

theorem increment_ttl_set_once_witness :
    (luaIncrement ((luaIncrement (fun _ => none) "k" 10 (some 3600)).1) "k" 10
        (some 100)).1 "k"
      = some ⟨10 + 10, some 3600⟩ := by
  have h0 : (luaIncrement (fun _ => none) "k" 10 (some 3600)).1 "k"
      = some ⟨10, some (3600 : ℤ).toNat⟩ :=
    (increment_ttl_set_once (fun _ => none) "k" 10 (some 3600)).2.2.2.1 3600
      (by decide) rfl
  exact (increment_ttl_set_once ((luaIncrement (fun _ => none) "k" 10 (some 3600)).1)
      "k" 10 (some 100)).1 10 3600 h0

/-- C10: `BudgetGuard.record_spend` enforces no limit: even when every derived
counter is already at or beyond its configured limit, all increments are
applied unconditionally, no error of any kind is raised (in particular no
`BudgetExceededError`, which is not a possible outcome of the function), and
every counter grows past its limit. -/
theorem record_spend_no_enforcement (cfg : Config) (dateStr u p : String)
    (modelName : Option String) (st : LState) (a : ℚ) (ttl : ℤ)
    (hp : p.isEmpty = false) (httl : 0 < ttl)
    (hne1 : projectKey p dateStr ≠ globalKey dateStr)
    (hne2 : userKey u dateStr ≠ globalKey dateStr)
    (hne3 : userKey u dateStr ≠ projectKey p dateStr)
    (hover_g : cfg.daily_global_limit_usd ≤ getUsageQ st (globalKey dateStr))
    (hover_p : cfg.daily_project_limit_usd ≤ getUsageQ st (projectKey p dateStr))
    (hover_u : cfg.daily_user_limit_usd ≤ getUsageQ st (userKey u dateStr)) :
    (guardRecordSpend (fun _ => false) st cfg dateStr u (some p) modelName a
        (some ttl)).2.1 = none
    ∧ getUsageQ (guardRecordSpend (fun _ => false) st cfg dateStr u (some p)
        modelName a (some ttl)).1 (globalKey dateStr)
      = getUsageQ st (globalKey dateStr) + a
    ∧ getUsageQ (guardRecordSpend (fun _ => false) st cfg dateStr u (some p)
        modelName a (some ttl)).1 (projectKey p dateStr)
      = getUsageQ st (projectKey p dateStr) + a
    ∧ getUsageQ (guardRecordSpend (fun _ => false) st cfg dateStr u (some p)
        modelName a (some ttl)).1 (userKey u dateStr)
      = getUsageQ st (userKey u dateStr) + a := by
  have htt : ∀ t : ℤ, (some ttl : Option ℤ) = some t → 0 < t :=
    fun t ht => (Option.some.inj ht) ▸ httl
  have hkeys : (getKeysAndLimits cfg dateStr u (some p)).map (·.1) =
      [globalKey dateStr, projectKey p dateStr, userKey u dateStr] := by
    unfold getKeysAndLimits
    simp [hp]
  have hst : (guardRecordSpend (fun _ => false) st cfg dateStr u (some p)
        modelName a (some ttl)).1
      = (luaIncrement ((luaIncrement ((luaIncrement st (globalKey dateStr) a
          (some ttl)).1) (projectKey p dateStr) a (some ttl)).1)
          (userKey u dateStr) a (some ttl)).1 := by
    unfold guardRecordSpend
    rw [hkeys]
    simp [recordSpendRun]
  have herr : (guardRecordSpend (fun _ => false) st cfg dateStr u (some p)
        modelName a (some ttl)).2.1 = none := by
    unfold guardRecordSpend
    rw [hkeys]
    simp [recordSpendRun]
  set st1 := (luaIncrement st (globalKey dateStr) a (some ttl)).1 with hst1
  set st2 := (luaIncrement st1 (projectKey p dateStr) a (some ttl)).1 with hst2
  set st3 := (luaIncrement st2 (userKey u dateStr) a (some ttl)).1 with hst3
  refine ⟨herr, ?_, ?_, ?_⟩
  · rw [hst]
    rw [getUsageQ_congr (luaIncrement_other st2 (userKey u dateStr) a (some ttl)
        (globalKey dateStr) (Ne.symm hne2))]
    rw [getUsageQ_congr (luaIncrement_other st1 (projectKey p dateStr) a (some ttl)
        (globalKey dateStr) (Ne.symm hne1))]
    exact luaIncrement_self st (globalKey dateStr) a (some ttl) htt
  · rw [hst]
    rw [getUsageQ_congr (luaIncrement_other st2 (userKey u dateStr) a (some ttl)
        (projectKey p dateStr) (Ne.symm hne3))]
    rw [luaIncrement_self st1 (projectKey p dateStr) a (some ttl) htt]
    rw [getUsageQ_congr (luaIncrement_other st (globalKey dateStr) a (some ttl)
        (projectKey p dateStr) hne1)]
  · rw [hst]
    rw [luaIncrement_self st2 (userKey u dateStr) a (some ttl) htt]
    rw [getUsageQ_congr (luaIncrement_other st1 (projectKey p dateStr) a (some ttl)
        (userKey u dateStr) hne3)]
    rw [getUsageQ_congr (luaIncrement_other st (globalKey dateStr) a (some ttl)
        (userKey u dateStr) hne2)]

theorem record_spend_no_enforcement_witness :
    (guardRecordSpend (fun _ => false) (fun _ => some ⟨10000, some 3600⟩)
        ⟨10, 500, 5000⟩ "2025-01-01" "u1" (some "p1") (some "gpt-4") 5
        (some 3600)).2.1 = none :=
  (record_spend_no_enforcement ⟨10, 500, 5000⟩ "2025-01-01" "u1" "p1"
      (some "gpt-4") (fun _ => some ⟨10000, some 3600⟩) 5 3600 rfl (by decide)
      (by decide) (by decide) (by decide) (by norm_num [getUsageQ])
      (by norm_num [getUsageQ]) (by norm_num [getUsageQ])).1

/-- With no backend failure, the increment loop of `record_spend` reports no
error. -/
theorem recordSpendRun_noFail (a : ℚ) (ttlArg : Option ℤ) (keys : List String)
    (st : LState) :
    (recordSpendRun (fun _ => false) a ttlArg keys st).2 = none := by
  induction keys generalizing st with
  | nil => rfl
  | cons k ks ih => exact ih _

/-- C9 counterexample: a successful `record_spend` with `project_id` absent
emits the project tag "none", not "unknown" as claimed. -/
theorem record_spend_project_tag_counterexample :
    (guardRecordSpend (fun _ => false) (fun _ => none) ⟨10, 500, 5000⟩
        "2025-01-01" "u1" none none 5 (some 3600)).2.2
      = some ⟨5, "unknown", "none", "u1"⟩
    ∧ "none" ≠ "unknown" := by
  exact ⟨rfl, by decide⟩

/-- C9 (amended): on every successful `record_spend` the emitted metric event
carries the recorded amount and is tagged with the given model, or "unknown"
when model is absent (or empty), and with the given project_id, or the tag
value "none" (not "unknown") when project_id is absent (or empty). -/
theorem record_spend_metric_tags (st : LState) (cfg : Config)
    (dateStr userId : String) (projectId modelName : Option String)
    (a : ℚ) (ttlArg : Option ℤ) :
    (guardRecordSpend (fun _ => false) st cfg dateStr userId projectId modelName
        a ttlArg).2.2
      = some ⟨a, pyOrElse modelName "unknown", pyOrElse projectId "none", userId⟩ := by
  unfold guardRecordSpend
  simp [recordSpendRun_noFail]

/-- C8 counterexample: the public `BudgetManager.record_spend` with a valid
user_id, a finite amount and `project_id`/`model` absent does not succeed — it
raises the `project_id` validation error. -/
theorem manager_requires_project_counterexample :
    manager_record_spend (some "u") none none (.finite 1)
      = .error "project_id must be a non-empty string." := rfl

/-- C8 (amended): `BudgetManager.record_spend` requires `project_id` and
`model`: with user_id valid and amount finite but project_id absent it raises
the ValueError "project_id must be a non-empty string." before any guard or
ledger call. project_id is optional only at the Guard layer, where a spend
without project derives exactly the global and user keys, increments those two
counters, and touches no other key. -/
theorem manager_record_spend_validation (u : String) (q : ℚ)
    (modelName : Option String) (cfg : Config) (dateStr userId : String)
    (st : LState) (a : ℚ) (ttl : ℤ) (httl : 0 < ttl)
    (hu : pyBlank (some u) = false)
    (hne : userKey userId dateStr ≠ globalKey dateStr) :
    manager_record_spend (some u) none modelName (.finite q)
      = .error "project_id must be a non-empty string."
    ∧ (getKeysAndLimits cfg dateStr userId none).map (·.1)
      = [globalKey dateStr, userKey userId dateStr]
    ∧ (∀ k2 : String, k2 ≠ globalKey dateStr → k2 ≠ userKey userId dateStr →
        (guardRecordSpend (fun _ => false) st cfg dateStr userId none modelName a
          (some ttl)).1 k2 = st k2)
    ∧ getUsageQ (guardRecordSpend (fun _ => false) st cfg dateStr userId none
        modelName a (some ttl)).1 (globalKey dateStr)
      = getUsageQ st (globalKey dateStr) + a
    ∧ getUsageQ (guardRecordSpend (fun _ => false) st cfg dateStr userId none
        modelName a (some ttl)).1 (userKey userId dateStr)
      = getUsageQ st (userKey userId dateStr) + a := by
  have htt : ∀ t : ℤ, (some ttl : Option ℤ) = some t → 0 < t :=
    fun t ht => (Option.some.inj ht) ▸ httl
  have hst : (guardRecordSpend (fun _ => false) st cfg dateStr userId none
        modelName a (some ttl)).1
      = (luaIncrement ((luaIncrement st (globalKey dateStr) a (some ttl)).1)
          (userKey userId dateStr) a (some ttl)).1 := by
    unfold guardRecordSpend getKeysAndLimits
    simp [recordSpendRun]
  refine ⟨?_, rfl, ?_, ?_, ?_⟩
  · unfold manager_record_spend
    rw [hu]
    rfl
  · intro k2 hk2g hk2u
    rw [hst]
    rw [luaIncrement_other _ (userKey userId dateStr) a (some ttl) k2 hk2u]
    exact luaIncrement_other st (globalKey dateStr) a (some ttl) k2 hk2g
  · rw [hst]
    rw [getUsageQ_congr (luaIncrement_other _ (userKey userId dateStr) a
        (some ttl) (globalKey dateStr) (Ne.symm hne))]
    exact luaIncrement_self st (globalKey dateStr) a (some ttl) htt
  · rw [hst]
    rw [luaIncrement_self _ (userKey userId dateStr) a (some ttl) htt]
    rw [getUsageQ_congr (luaIncrement_other st (globalKey dateStr) a (some ttl)
        (userKey userId dateStr) hne)]

theorem manager_record_spend_validation_witness :
    getUsageQ (guardRecordSpend (fun _ => false) (fun _ => none) ⟨10, 500, 5000⟩
        "2025-01-01" "u1" none none 5 (some 3600)).1 (globalKey "2025-01-01")
      = getUsageQ (fun _ => none) (globalKey "2025-01-01") + 5 :=
  (manager_record_spend_validation "u1" 1 none ⟨10, 500, 5000⟩ "2025-01-01" "u1"
      (fun _ => none) 5 3600 (by decide) (by decide) (by decide)).2.2.2.1

/-- C6 counterexample: a stored empty string is not numeric
(`float("")` raises in Python), yet `get_usage` silently returns usage 0
instead of failing. -/
theorem get_usage_empty_string_counterexample :
    get_usage (fun _ => some "") "k" = .ok 0 ∧ parseFloat "" = none :=
  ⟨rfl, rfl⟩

/-- C6 (amended): `get_usage` returns 0.0 when the key is absent or when the
stored value is the empty string (which is silently treated like an absent
key although it is not numeric); when the stored value is non-empty and not
numeric it fails with an uncaught `ValueError` (the code has no dedicated
`CorruptDataError` class) rather than returning zero; when the stored value is
numeric it returns that value. -/
theorem get_usage_semantics (st : RStore) (k : String) :
    (st k = none → get_usage st k = .ok 0)
    ∧ (st k = some "" → get_usage st k = .ok 0)
    ∧ (∀ v : String, st k = some v → v.isEmpty = false → parseFloat v = none →
        get_usage st k = .valueError)
    ∧ (∀ v : String, ∀ q : ℚ, st k = some v → v.isEmpty = false →
        parseFloat v = some q → get_usage st k = .ok q) := by
  refine ⟨?_, ?_, ?_, ?_⟩
  · intro h
    unfold get_usage
    rw [h]
  · intro h
    unfold get_usage
    rw [h]
    rfl
  · intro v h hv hp
    unfold get_usage
    rw [h]
    simp [hv, hp]
  · intro v q h hv hp
    unfold get_usage
    rw [h]
    simp [hv, hp]

theorem get_usage_semantics_witness :
    get_usage (fun _ => some "NOT_A_NUMBER") "k" = .valueError :=
  (get_usage_semantics (fun _ => some "NOT_A_NUMBER") "k").2.2.1 "NOT_A_NUMBER"
    rfl (by decide) (by decide)

/-- C5: the claim (matching the repository's own test, which asserts
`_get_ttl_seconds` is clamped to a minimum of 1) fails on the code: there is no
clamp, and half a second before UTC midnight — `secOfDay = 86399.5`, a valid
time of day — the function returns 0, which the backend treats as an expired
key. -/
theorem get_ttl_seconds_no_clamp :
    getTtlSeconds ((172799 : ℚ) / 2) = 0
    ∧ ¬(1 ≤ getTtlSeconds ((172799 : ℚ) / 2))
    ∧ (0 ≤ ((172799 : ℚ) / 2) ∧ ((172799 : ℚ) / 2) < 86400) := by
  have heq : ((86400 : ℚ) - 172799 / 2) = 1 / 2 := by norm_num
  have h : getTtlSeconds ((172799 : ℚ) / 2) = 0 := by
    unfold getTtlSeconds pyInt
    rw [heq, if_pos (by norm_num), Int.floor_eq_zero_iff]
    constructor <;> norm_num
  exact ⟨h, by rw [h]; norm_num, by norm_num, by norm_num⟩

end CoreasonBudget
